import Mathlib

/-!
Verification of the gelfie log-shipping library (GELF client).

Shallow embedding of the three source files:
- `lib/udp.js` (`UdpTransport`): datagram transport with the GELF chunking
  protocol.  Node `Buffer`s are modelled by `Buf` (a size plus a byte
  function); `Buffer.allocUnsafe` garbage is an explicit `junk` parameter;
  `buf.copy` clamps to both buffers' bounds exactly as Node does.  The
  network is modelled as a trace of events (`Ev`); write-completion
  failures are an oracle `fails`.
- `lib/tcp.js` (`TcpTransport`): stream transport with a backpressure
  backlog.  `socket.write` acceptance results are an oracle `accept`
  indexed by the number of prior writes.
- `lib/index.js` (`GelfClient`): transport selection and message
  forwarding.  Field composition is glue outside the core (spec section 1)
  and is modelled at the level the claims need.

Bytes are `Nat`s; stores into buffers reduce modulo 256 as JS typed-array
stores do.  JSON serialization and zlib deflation are host functions
outside the repository; the claims quantify over the post-compression
byte string, which is taken as the input `msg`.
-/

/-- Constant from `lib/udp.js`: size of the GELF chunk header. -/
def kChunkHeaderSize : Nat := 12

/-- Constant from `lib/udp.js`: default datagram buffer size. -/
def kDefaultBufSize : Nat := 1400

/-- Constant from `lib/udp.js`: first magic byte of a chunk header. -/
def kMagicByte0 : Nat := 0x1e

/-- Constant from `lib/udp.js`: second magic byte of a chunk header. -/
def kMagicByte1 : Nat := 0x0f

/-- Constant from `lib/udp.js`: maximum number of chunks per message. -/
def kMaxChunks : Nat := 128

/-- Constant from `lib/udp.js`: length of the random message id. -/
def kMessageIdBytes : Nat := 8

/-- Constant from `lib/udp.js`: offset of the first magic byte. -/
def kOffsetMagicByte0 : Nat := 0

/-- Constant from `lib/udp.js`: offset of the second magic byte. -/
def kOffsetMagicByte1 : Nat := 1

/-- Constant from `lib/udp.js`: offset of the message id. -/
def kOffsetMessageId : Nat := 2

/-- Constant from `lib/udp.js`: offset of the sequence number byte. -/
def kOffsetSequenceNumber : Nat := 10

/-- Constant from `lib/udp.js`: offset of the sequence count byte. -/
def kOffsetSequenceCount : Nat := 11

/-- Constant from `lib/udp.js`: offset of the payload. -/
def kOffsetPayload : Nat := 12

/-- `Math.ceil(a / b)` as computed by the JS code on nonnegative safe
integers (`b > 0` at every use site). -/
def jsCeilDiv (a b : Nat) : Nat := (a + b - 1) / b

/-- A Node `Buffer`: a length together with the byte at every offset
(offsets at or beyond `size` are irrelevant and never materialized). -/
structure Buf where
  size : Nat
  data : Nat → Nat

/-- `buf[i] = v`: JS typed-array element store (truncates mod 256). -/
def Buf.set (b : Buf) (i v : Nat) : Buf :=
  ⟨b.size, fun j => if j = i then v % 256 else b.data j⟩

/-- `src.copy(tgt, targetStart, sourceStart, sourceEnd)` from Node:
copies `src[sourceStart..sourceEnd)` into `tgt` at `targetStart`,
silently clamped to both buffers' bounds. -/
def bufCopy (src : List Nat) (tgt : Buf) (targetStart sourceStart sourceEnd : Nat) : Buf :=
  let sEnd := min sourceEnd src.length
  let cnt := min (sEnd - sourceStart) (tgt.size - targetStart)
  ⟨tgt.size, fun j =>
    if targetStart ≤ j ∧ j < targetStart + cnt then
      src.getD (sourceStart + (j - targetStart)) 0
    else tgt.data j⟩

/-- The byte string a buffer holds when handed to `socket.send`. -/
def Buf.toBytes (b : Buf) : List Nat := (List.range b.size).map b.data

/-- Observable network-facing events of the datagram transport. -/
inductive Ev where
  | dispatch (bytes : List Nat)
  | complete (seqId : Nat) (ok : Bool)
  | errorEmitted (message : String)
deriving DecidableEq, Repr

/-- `UdpTransport._send` from `lib/udp.js`: the sequential chunk loop of
the `reuseBuffer` path.  Each fragment is dispatched, then its write
completion either reports an error (emit on the error channel and stop)
or, when bytes remain, triggers the next fragment inside the callback.
`fuel` bounds the recursion depth; since every iteration consumes at
least one byte of `bytesToSend` whenever the chunk has positive payload
capacity, `fuel = bytesToSend` at the top call is always sufficient. -/
def udpSendLoop (fails : Nat → Bool) (data : List Nat) :
    Nat → Buf → Nat → Nat → List Ev
  | 0, _, _, _ => []
  | fuel + 1, chunk, sequenceId, bytesToSend =>
    let bytesToCopy := min bytesToSend (chunk.size - kChunkHeaderSize)
    let dataStart := data.length - bytesToSend
    let dataEnd := dataStart + bytesToCopy
    let chunk1 := chunk.set kOffsetSequenceNumber sequenceId
    let chunk2 := bufCopy data chunk1 kOffsetPayload dataStart dataEnd
    Ev.dispatch chunk2.toBytes ::
      Ev.complete sequenceId (!fails sequenceId) ::
      (if fails sequenceId then
        [Ev.errorEmitted ("socket send failed")]
      else
        let remainingBytes := bytesToSend - bytesToCopy
        if 0 < remainingBytes then
          udpSendLoop fails data fuel chunk2 (sequenceId + 1) remainingBytes
        else [])

/-- `UdpTransport.send` from `lib/udp.js`, from the post-compression byte
string `msg` onward.  `msgId` stands for the `randomBytes(8)` result,
`junk i` gives the uninitialized contents of the `i`-th
`Buffer.allocUnsafe` of this call, and `fails` tells which fragment
write completions report an error (only observed on the `reuseBuffer`
path, the only one passing a callback to `socket.send`). -/
def udpSend (bufferSize : Nat) (reuseBuffer : Bool) (msgId : List Nat)
    (junk : Nat → Nat → Nat) (fails : Nat → Bool) (msg : List Nat) : List Ev :=
  let byteLength := msg.length
  if byteLength ≤ bufferSize then
    [Ev.dispatch msg]
  else
    let maxDataPerChunk := bufferSize - kChunkHeaderSize
    let numChunks := jsCeilDiv byteLength maxDataPerChunk
    if kMaxChunks < numChunks then
      [Ev.errorEmitted ("message too large")]
    else
      let totalHeaderSize := numChunks * kChunkHeaderSize
      let chunkSize := jsCeilDiv (byteLength + totalHeaderSize) numChunks
      if reuseBuffer then
        let buf0 : Buf := ⟨chunkSize, junk 0⟩
        let buf1 := buf0.set kOffsetMagicByte0 kMagicByte0
        let buf2 := buf1.set kOffsetMagicByte1 kMagicByte1
        let buf3 := bufCopy msgId buf2 kOffsetMessageId 0 msgId.length
        let buf4 := buf3.set kOffsetSequenceCount numChunks
        udpSendLoop fails msg byteLength buf4 0 byteLength
      else
        (List.range numChunks).map fun sequenceId =>
          let buf0 : Buf := ⟨chunkSize, junk sequenceId⟩
          let msgStart := sequenceId * maxDataPerChunk
          let msgEnd := min msg.length (msgStart + maxDataPerChunk)
          let buf1 := buf0.set kOffsetMagicByte0 kMagicByte0
          let buf2 := buf1.set kOffsetMagicByte1 kMagicByte1
          let buf3 := bufCopy msgId buf2 kOffsetMessageId 0 msgId.length
          let buf4 := buf3.set kOffsetSequenceCount numChunks
          let buf5 := buf4.set kOffsetSequenceNumber sequenceId
          let buf6 := bufCopy msg buf5 kOffsetPayload msgStart msgEnd
          Ev.dispatch buf6.toBytes

/-- The datagrams a trace hands to the socket, in dispatch order. -/
def dispatchedDatagrams (tr : List Ev) : List (List Nat) :=
  tr.filterMap fun e => match e with
    | Ev.dispatch b => some b
    | _ => none

/-- The errors a trace emits on the client error channel, in order. -/
def emittedErrors (tr : List Ev) : List String :=
  tr.filterMap fun e => match e with
    | Ev.errorEmitted s => some s
    | _ => none

/-- Events with the datagram bytes erased down to the sequence-number
byte, for stating pure sequencing properties. -/
inductive EvS where
  | disp (seqByte : Nat)
  | comp (seqId : Nat) (ok : Bool)
  | errS
deriving DecidableEq, Repr

/-- Erase a transport event to its sequencing skeleton. -/
def stripEv : Ev → EvS
  | Ev.dispatch b => EvS.disp (b.getD kOffsetSequenceNumber 0)
  | Ev.complete i ok => EvS.comp i ok
  | Ev.errorEmitted _ => EvS.errS

/-- The strictly sequential fragment schedule the spec describes for the
reused-buffer path: starting at fragment `s` with `r` fragments left,
dispatch one fragment, observe its completion, and either stop with an
error report or continue with the next fragment only after that
completion. -/
def seqTrace (fails : Nat → Bool) : Nat → Nat → List EvS
  | _, 0 => []
  | s, r + 1 =>
    EvS.disp s :: EvS.comp s (!fails s) ::
      (if fails s then [EvS.errS] else seqTrace fails (s + 1) r)

/-- `TcpTransport` observable state: the backlog, the write-acceptance
flag, the byte strings accepted by `socket.write` in order, the errors
emitted on the client channel, and the socket/client references
(`true` = present, `false` = null). -/
structure TcpState where
  backlog : List (List Nat)
  canAcceptData : Bool
  written : List (List Nat)
  errors : List String
  socket : Bool
  client : Bool
deriving DecidableEq, Repr

/-- Stream framing from `TcpTransport.send`: JSON bytes plus one NUL. -/
def frameMsg (m : List Nat) : List Nat := m ++ [0]

/-- `TcpTransport.send` from `lib/tcp.js`.  `accept n` is the boolean
`socket.write` returns for the `n`-th write overall (the stream's
acceptance signal); `maxBacklogSize` is the configured bound.  The
function is total: every outcome, including backlog overflow, is
recorded in the state rather than raised. -/
def tcpSend (accept : Nat → Bool) (maxBacklogSize : Nat) (s : TcpState)
    (message : List Nat) : TcpState :=
  let msg := frameMsg message
  if s.canAcceptData then
    { s with written := s.written ++ [msg],
             canAcceptData := accept s.written.length }
  else if s.backlog.length < maxBacklogSize then
    { s with backlog := s.backlog ++ [msg] }
  else
    { s with errors := s.errors ++ ["too many messages buffered"] }

/-- The `while` loop of the drain handler in `TcpTransport.connect`:
while the stream accepts data and the backlog is nonempty, shift the
oldest entry and write it, updating the acceptance flag from the
write's result.  Returns (written, backlog, canAcceptData). -/
def tcpDrainLoop (accept : Nat → Bool) (written : List (List Nat)) :
    List (List Nat) → Bool → List (List Nat) × List (List Nat) × Bool
  | backlog, false => (written, backlog, false)
  | [], canAccept => (written, [], canAccept)
  | data :: rest, true =>
    tcpDrainLoop accept (written ++ [data]) rest (accept written.length)

/-- The drain handler registered in `TcpTransport.connect`: restore
acceptance, then run the drain loop. -/
def tcpDrain (accept : Nat → Bool) (s : TcpState) : TcpState :=
  let r := tcpDrainLoop accept s.written s.backlog true
  { s with written := r.1, backlog := r.2.1, canAcceptData := r.2.2 }

/-- `TcpTransport.close` from `lib/tcp.js`: always clear the client
reference; if the socket is already gone, stop; otherwise drop the
backlog and the socket without writing anything. -/
def tcpClose (s : TcpState) : TcpState :=
  let s1 := { s with client := false }
  if s1.socket then { s1 with socket := false, backlog := [] } else s1

/-- External stimuli of the stream transport. -/
inductive TcpEv where
  | send (m : List Nat)
  | drain
deriving DecidableEq, Repr

/-- One stimulus applied to the transport state. -/
def tcpStep (accept : Nat → Bool) (maxBacklogSize : Nat) (s : TcpState) :
    TcpEv → TcpState
  | TcpEv.send m => tcpSend accept maxBacklogSize s m
  | TcpEv.drain => tcpDrain accept s

/-- A whole stimulus sequence applied in order. -/
def tcpRun (accept : Nat → Bool) (maxBacklogSize : Nat)
    (evs : List TcpEv) (s : TcpState) : TcpState :=
  evs.foldl (tcpStep accept maxBacklogSize) s

/-- State right after `TcpTransport.connect` succeeds. -/
def tcpInit : TcpState :=
  { backlog := [], canAcceptData := true, written := [], errors := [],
    socket := true, client := true }

/-- The framed messages of the `send` stimuli of a run, in call order. -/
def sentFrames (evs : List TcpEv) : List (List Nat) :=
  evs.filterMap fun e => match e with
    | TcpEv.send m => some (frameMsg m)
    | TcpEv.drain => none

/-- `UdpTransport` reference state for `connect`/`close` lifecycle
(`true` = reference present, `false` = null). -/
structure UdpState where
  socket : Bool
  client : Bool
deriving DecidableEq, Repr

/-- A freshly constructed `UdpTransport` (socket not yet created). -/
def udpInit : UdpState := { socket := false, client := true }

/-- `UdpTransport.connect`: create the socket. -/
def udpConnect (s : UdpState) : UdpState := { s with socket := true }

/-- `UdpTransport.close` from `lib/udp.js`: a no-op when the socket is
already gone, otherwise clear both references and close the socket. -/
def udpClose (s : UdpState) : UdpState :=
  if s.socket then { socket := false, client := false } else s

/-- `supportedTransports` from `lib/index.js`. -/
def supportedTransports : List String := ["udp"]

/-- The composed GELF record at the level the claims inspect; the
short/full message payload and additional fields are glue the spec
scopes out of the core (section 1). -/
structure GelfMessage where
  version : String
  host : String
  level : Int
deriving DecidableEq, Repr

/-- Level selection in `GelfClient[kLogFunction]`: a safe integer in
`[0, 7]` is kept, anything else becomes 1. -/
def composeLevel (level : Option Int) : Int :=
  match level with
  | some l => if 0 ≤ l ∧ l ≤ 7 then l else 1
  | none => 1

/-- The message record `GelfClient[kLogFunction]` builds and forwards. -/
def composeMessage (version host : String) (level : Option Int) : GelfMessage :=
  { version := version, host := host, level := composeLevel level }

/-- Client state: configured host/version and the transport reference;
`some sent` holds the messages the transport's `send` has received,
`none` is the null reference `GelfClient.close` leaves behind. -/
structure GelfClient where
  host : String
  version : String
  transport : Option (List GelfMessage)
deriving DecidableEq, Repr

/-- The `GelfClient` constructor from `lib/index.js`, for an
already-type-valid configuration: the transport kind must be in
`supportedTransports`, and the transport instantiated is always the
UDP one. -/
def gelfConstruct (host version transport : String) : Except String GelfClient :=
  if supportedTransports.contains transport then
    Except.ok { host := host, version := version, transport := some [] }
  else
    Except.error ("unsupported transport: " ++ transport)

/-- `GelfClient[kLogFunction]`: compose the record and hand it to
`this[kTransport].send`.  A null transport reference makes the member
access throw a `TypeError`, modelled as the error branch. -/
def gelfLog (c : GelfClient) (level : Option Int) : Except String GelfClient :=
  match c.transport with
  | none => Except.error ("TypeError: transport is null")
  | some sent =>
    Except.ok { c with
      transport := some (sent ++ [composeMessage c.version c.host level]) }

/-- `GelfClient.close` from `lib/index.js`: read the transport
reference, null it, then call `transport.close()` — which throws a
`TypeError` when the reference was already null. -/
def gelfClose (c : GelfClient) : Except String GelfClient :=
  match c.transport with
  | none => Except.error ("TypeError: transport is null")
  | some _ => Except.ok { c with transport := none }

/-- The header bytes (offsets 0-11 except the sequence number at 10) a
chunk buffer carries on the reused-buffer path. -/
def headerOk (msgId : List Nat) (cnt : Nat) (b : Buf) : Prop :=
  b.data 0 = kMagicByte0 ∧ b.data 1 = kMagicByte1 ∧
    (∀ j, j < 8 → b.data (2 + j) = msgId.getD j 0) ∧ b.data 11 = cnt

/-! ### Arithmetic facts about `jsCeilDiv` -/

theorem jsCeilDiv_le_iff {a b n : Nat} (hb : 0 < b) :
    jsCeilDiv a b ≤ n ↔ a ≤ n * b := by
  unfold jsCeilDiv
  rw [← Nat.lt_succ_iff, Nat.div_lt_iff_lt_mul hb, Nat.succ_mul]
  omega

theorem le_jsCeilDiv_mul {a b : Nat} (hb : 0 < b) : a ≤ jsCeilDiv a b * b :=
  (jsCeilDiv_le_iff hb).mp le_rfl

theorem jsCeilDiv_mul_lt {a b n : Nat} (hb : 0 < b) (h : n < jsCeilDiv a b) :
    n * b < a := by
  by_contra hc
  have := (jsCeilDiv_le_iff hb).mpr (Nat.le_of_not_lt hc)
  omega

theorem jsCeilDiv_pos {a b : Nat} (hb : 0 < b) (ha : 0 < a) :
    0 < jsCeilDiv a b := by
  by_contra h
  have h0 : jsCeilDiv a b ≤ 0 := by omega
  have h1 := (jsCeilDiv_le_iff hb).mp h0
  rw [Nat.zero_mul] at h1
  omega

theorem jsCeilDiv_eq_one {a b : Nat} (hb : 0 < b) (ha : 0 < a) (h : a ≤ b) :
    jsCeilDiv a b = 1 := by
  have h1 : jsCeilDiv a b ≤ 1 := (jsCeilDiv_le_iff hb).mpr (by rw [Nat.one_mul]; exact h)
  have h2 := jsCeilDiv_pos hb ha
  omega

theorem jsCeilDiv_sub {a b : Nat} (hb : 0 < b) (h : b < a) :
    jsCeilDiv a b = jsCeilDiv (a - b) b + 1 := by
  unfold jsCeilDiv
  have h1 : a + b - 1 = (a - b + b - 1) + b := by omega
  rw [h1, Nat.add_div_right _ hb]

theorem jsCeilDiv_add_mul_self {L n : Nat} (hn : 0 < n) :
    jsCeilDiv (L + n * kChunkHeaderSize) n = kChunkHeaderSize + jsCeilDiv L n := by
  unfold jsCeilDiv kChunkHeaderSize
  have h1 : L + n * 12 + n - 1 = (L + n - 1) + 12 * n := by omega
  rw [h1, Nat.add_mul_div_right _ _ hn, Nat.add_comm]

/-- The chunking arithmetic context: for a message of `L` bytes that
needs chunking, the chunk count `n`, the per-chunk payload capacity
`c = chunkSize - 12`, and the fact that sending `c` bytes at a time
takes exactly `n` sends. -/
theorem chunkArith {bufferSize L : Nat} (hb : kChunkHeaderSize < bufferSize)
    (hL : bufferSize < L) :
    0 < bufferSize - kChunkHeaderSize ∧
    2 ≤ jsCeilDiv L (bufferSize - kChunkHeaderSize) ∧
    0 < jsCeilDiv L (jsCeilDiv L (bufferSize - kChunkHeaderSize)) ∧
    jsCeilDiv L (jsCeilDiv L (bufferSize - kChunkHeaderSize)) ≤ bufferSize - kChunkHeaderSize ∧
    jsCeilDiv L (jsCeilDiv L (jsCeilDiv L (bufferSize - kChunkHeaderSize))) =
      jsCeilDiv L (bufferSize - kChunkHeaderSize) := by
  have hk : kChunkHeaderSize = 12 := rfl
  have hm : 0 < bufferSize - kChunkHeaderSize := by omega
  have hLpos : 0 < L := by omega
  have hn : 0 < jsCeilDiv L (bufferSize - kChunkHeaderSize) := jsCeilDiv_pos hm hLpos
  have hc : 0 < jsCeilDiv L (jsCeilDiv L (bufferSize - kChunkHeaderSize)) :=
    jsCeilDiv_pos hn hLpos
  have hLnm : L ≤ jsCeilDiv L (bufferSize - kChunkHeaderSize) * (bufferSize - kChunkHeaderSize) :=
    le_jsCeilDiv_mul hm
  have hcm : jsCeilDiv L (jsCeilDiv L (bufferSize - kChunkHeaderSize)) ≤
      bufferSize - kChunkHeaderSize :=
    (jsCeilDiv_le_iff hn).mpr (by rw [Nat.mul_comm]; exact hLnm)
  have hn2 : 2 ≤ jsCeilDiv L (bufferSize - kChunkHeaderSize) := by
    by_contra hle
    have h1 : jsCeilDiv L (bufferSize - kChunkHeaderSize) ≤ 1 := by omega
    have h2 := (jsCeilDiv_le_iff hm).mp h1
    rw [Nat.one_mul] at h2
    omega
  refine ⟨hm, hn2, hc, hcm, ?_⟩
  apply Nat.le_antisymm
  · exact (jsCeilDiv_le_iff hc).mpr
      (by rw [Nat.mul_comm]; exact le_jsCeilDiv_mul hn)
  · by_contra hlt
    have h1 : jsCeilDiv L (jsCeilDiv L (jsCeilDiv L (bufferSize - kChunkHeaderSize))) ≤
        jsCeilDiv L (bufferSize - kChunkHeaderSize) - 1 := by omega
    have h2 := (jsCeilDiv_le_iff hc).mp h1
    have h3 : (jsCeilDiv L (bufferSize - kChunkHeaderSize) - 1) *
        jsCeilDiv L (jsCeilDiv L (bufferSize - kChunkHeaderSize)) ≤
        (jsCeilDiv L (bufferSize - kChunkHeaderSize) - 1) * (bufferSize - kChunkHeaderSize) :=
      Nat.mul_le_mul_left _ hcm
    have h4 : (jsCeilDiv L (bufferSize - kChunkHeaderSize) - 1) *
        (bufferSize - kChunkHeaderSize) < L :=
      jsCeilDiv_mul_lt hm (by omega)
    have h5 : L < L := Nat.lt_of_le_of_lt (Nat.le_trans h2 h3) h4
    exact absurd h5 (Nat.lt_irrefl L)

/-! ### Buffer facts -/

theorem Buf.size_set (b : Buf) (i v : Nat) : (b.set i v).size = b.size := rfl

theorem size_bufCopy (src : List Nat) (tgt : Buf) (t s e : Nat) :
    (bufCopy src tgt t s e).size = tgt.size := rfl

theorem Buf.length_toBytes (b : Buf) : b.toBytes.length = b.size := by
  simp [Buf.toBytes]

theorem Buf.toBytes_getD (b : Buf) (i : Nat) (h : i < b.size) :
    b.toBytes.getD i 0 = b.data i := by
  unfold Buf.toBytes
  rw [List.getD_eq_getElem?_getD, List.getElem?_map, List.getElem?_range h]
  rfl

theorem headerOk_set10 {msgId : List Nat} {cnt : Nat} {b : Buf} (h : headerOk msgId cnt b)
    (v : Nat) : headerOk msgId cnt (b.set kOffsetSequenceNumber v) := by
  obtain ⟨h0, h1, h2, h3⟩ := h
  refine ⟨?_, ?_, fun j hj => ?_, ?_⟩ <;>
    simp only [Buf.set, kOffsetSequenceNumber]
  · rw [if_neg (by omega)]; exact h0
  · rw [if_neg (by omega)]; exact h1
  · rw [if_neg (by omega)]; exact h2 j hj
  · rw [if_neg (by omega)]; exact h3

theorem headerOk_payloadCopy {msgId : List Nat} {cnt : Nat} {b : Buf}
    (h : headerOk msgId cnt b) (data : List Nat) (ds de : Nat) :
    headerOk msgId cnt (bufCopy data b kOffsetPayload ds de) := by
  obtain ⟨h0, h1, h2, h3⟩ := h
  refine ⟨?_, ?_, fun j hj => ?_, ?_⟩ <;>
    simp only [bufCopy, kOffsetPayload]
  · rw [if_neg (by omega)]; exact h0
  · rw [if_neg (by omega)]; exact h1
  · rw [if_neg (by omega)]; exact h2 j hj
  · rw [if_neg (by omega)]; exact h3

theorem toBytes_headerFacts (b : Buf) (msgId : List Nat) (cnt : Nat)
    (hlen : msgId.length = 8) (hsize : 12 ≤ b.size) (h : headerOk msgId cnt b) :
    b.toBytes.getD 0 0 = kMagicByte0 ∧ b.toBytes.getD 1 0 = kMagicByte1 ∧
      (b.toBytes.drop 2).take 8 = msgId ∧ b.toBytes.getD 11 0 = cnt := by
  obtain ⟨h0, h1, h2, h3⟩ := h
  refine ⟨?_, ?_, ?_, ?_⟩
  · rw [Buf.toBytes_getD b 0 (by omega)]; exact h0
  · rw [Buf.toBytes_getD b 1 (by omega)]; exact h1
  · apply List.ext_getElem
    · simp [Buf.toBytes, hlen]
      omega
    · intro i h1' h2'
      have hi : i < 8 := by
        simp [Buf.toBytes] at h1'
        omega
      have hib : 2 + i < b.size := by omega
      simp only [List.getElem_take, List.getElem_drop, Buf.toBytes, List.getElem_map,
        List.getElem_range]
      rw [h2 i hi, List.getD_eq_getElem]
  · rw [Buf.toBytes_getD b 11 (by omega)]; exact h3

@[simp] theorem dispatchedDatagrams_nil : dispatchedDatagrams [] = [] := rfl

@[simp] theorem dispatchedDatagrams_dispatch (b : List Nat) (tr : List Ev) :
    dispatchedDatagrams (Ev.dispatch b :: tr) = b :: dispatchedDatagrams tr := rfl

@[simp] theorem dispatchedDatagrams_complete (i : Nat) (ok : Bool) (tr : List Ev) :
    dispatchedDatagrams (Ev.complete i ok :: tr) = dispatchedDatagrams tr := rfl

@[simp] theorem dispatchedDatagrams_error (s : String) (tr : List Ev) :
    dispatchedDatagrams (Ev.errorEmitted s :: tr) = dispatchedDatagrams tr := rfl

@[simp] theorem emittedErrors_nil : emittedErrors [] = [] := rfl

@[simp] theorem emittedErrors_dispatch (b : List Nat) (tr : List Ev) :
    emittedErrors (Ev.dispatch b :: tr) = emittedErrors tr := rfl

@[simp] theorem emittedErrors_complete (i : Nat) (ok : Bool) (tr : List Ev) :
    emittedErrors (Ev.complete i ok :: tr) = emittedErrors tr := rfl

@[simp] theorem emittedErrors_error (s : String) (tr : List Ev) :
    emittedErrors (Ev.errorEmitted s :: tr) = s :: emittedErrors tr := rfl

theorem data10_after (chunk : Buf) (v : Nat) (data : List Nat) (ds de : Nat) :
    (bufCopy data (chunk.set kOffsetSequenceNumber v) kOffsetPayload ds de).data 10 =
      v % 256 := by
  simp only [bufCopy, Buf.set, kOffsetPayload, kOffsetSequenceNumber]
  rw [if_neg (by omega)]
  simp

/-- The observable bytes of one fragment of the reused-buffer path: the
buffer after the sequence-number store and the payload copy of one
`_send` iteration. -/
theorem chunkStep_facts (chunk : Buf) (msgId data : List Nat) (cnt v : Nat)
    (hlen : msgId.length = 8) (hsize12 : 12 ≤ chunk.size) (hv : v < 256)
    (hhdr : headerOk msgId cnt chunk) (ds de : Nat) :
    (bufCopy data (chunk.set kOffsetSequenceNumber v) kOffsetPayload ds de).toBytes.length =
        chunk.size ∧
      (bufCopy data (chunk.set kOffsetSequenceNumber v) kOffsetPayload ds de).toBytes.getD
        10 0 = v ∧
      (bufCopy data (chunk.set kOffsetSequenceNumber v) kOffsetPayload ds de).toBytes.getD
        0 0 = kMagicByte0 ∧
      (bufCopy data (chunk.set kOffsetSequenceNumber v) kOffsetPayload ds de).toBytes.getD
        1 0 = kMagicByte1 ∧
      ((bufCopy data (chunk.set kOffsetSequenceNumber v) kOffsetPayload ds de).toBytes.drop
        2).take 8 = msgId ∧
      (bufCopy data (chunk.set kOffsetSequenceNumber v) kOffsetPayload ds de).toBytes.getD
        11 0 = cnt := by
  have hh : headerOk msgId cnt
      (bufCopy data (chunk.set kOffsetSequenceNumber v) kOffsetPayload ds de) :=
    headerOk_payloadCopy (headerOk_set10 hhdr v) data ds de
  have hsz : (bufCopy data (chunk.set kOffsetSequenceNumber v) kOffsetPayload ds de).size =
      chunk.size := rfl
  have hf := toBytes_headerFacts _ msgId cnt hlen (by rw [hsz]; exact hsize12) hh
  refine ⟨?_, ?_, hf.1, hf.2.1, hf.2.2.1, hf.2.2.2⟩
  · rw [Buf.length_toBytes, hsz]
  · rw [Buf.toBytes_getD _ 10 (by rw [hsz]; omega), data10_after, Nat.mod_eq_of_lt hv]


/-- One unfolding step of the loop (general failure oracle). -/
theorem udpSendLoop_succ (fails : Nat → Bool) (data : List Nat) (fuel : Nat)
    (chunk : Buf) (s bts : Nat) :
    udpSendLoop fails data (fuel + 1) chunk s bts =
      Ev.dispatch (bufCopy data (chunk.set kOffsetSequenceNumber s) kOffsetPayload
          (data.length - bts)
          (data.length - bts + min bts (chunk.size - kChunkHeaderSize))).toBytes ::
        Ev.complete s (!fails s) ::
        (if fails s then [Ev.errorEmitted ("socket send failed")]
         else if 0 < bts - min bts (chunk.size - kChunkHeaderSize) then
           udpSendLoop fails data fuel
             (bufCopy data (chunk.set kOffsetSequenceNumber s) kOffsetPayload
               (data.length - bts)
               (data.length - bts + min bts (chunk.size - kChunkHeaderSize)))
             (s + 1) (bts - min bts (chunk.size - kChunkHeaderSize))
         else []) := rfl

/-- One unfolding step of the loop under the no-failure oracle. -/
theorem udpSendLoop_succ_nofail (data : List Nat) (fuel : Nat)
    (chunk : Buf) (s bts : Nat) :
    udpSendLoop (fun _ => false) data (fuel + 1) chunk s bts =
      Ev.dispatch (bufCopy data (chunk.set kOffsetSequenceNumber s) kOffsetPayload
          (data.length - bts)
          (data.length - bts + min bts (chunk.size - kChunkHeaderSize))).toBytes ::
        Ev.complete s true ::
        (if 0 < bts - min bts (chunk.size - kChunkHeaderSize) then
           udpSendLoop (fun _ => false) data fuel
             (bufCopy data (chunk.set kOffsetSequenceNumber s) kOffsetPayload
               (data.length - bts)
               (data.length - bts + min bts (chunk.size - kChunkHeaderSize)))
             (s + 1) (bts - min bts (chunk.size - kChunkHeaderSize))
         else []) := rfl

/-- The reused-buffer loop under the no-failure oracle: starting at
fragment `s` with `bts` bytes left and a chunk of payload capacity `c`
carrying a correct header, the loop dispatches exactly
`jsCeilDiv bts c` fragments whose sequence-number bytes are
`s, s+1, ...` in order, each of the full chunk length and carrying the
shared header, and emits no error. -/
theorem udpSendLoop_nofail {c : Nat} (data msgId : List Nat) (cnt : Nat)
    (hlen : msgId.length = 8) (hc : 0 < c) :
    ∀ (fuel bts s : Nat) (chunk : Buf), 0 < bts → bts ≤ fuel →
      chunk.size = kChunkHeaderSize + c →
      s + jsCeilDiv bts c ≤ 128 →
      headerOk msgId cnt chunk →
      ((dispatchedDatagrams (udpSendLoop (fun _ => false) data fuel chunk s bts)).map
          (fun d => d.getD 10 0) = List.range' s (jsCeilDiv bts c) ∧
        (∀ d ∈ dispatchedDatagrams (udpSendLoop (fun _ => false) data fuel chunk s bts),
          d.length = kChunkHeaderSize + c ∧ d.getD 0 0 = kMagicByte0 ∧
          d.getD 1 0 = kMagicByte1 ∧ (d.drop 2).take 8 = msgId ∧
          d.getD 11 0 = cnt) ∧
        emittedErrors (udpSendLoop (fun _ => false) data fuel chunk s bts) = []) := by
  intro fuel
  induction fuel with
  | zero =>
    intro bts s chunk hbts hfuel _ _ _
    omega
  | succ fuel ih =>
    intro bts s chunk hbts hfuel hsize hs128 hhdr
    have hcap : chunk.size - kChunkHeaderSize = c := by
      rw [hsize]; simp [kChunkHeaderSize]
    have hcpos := jsCeilDiv_pos hc hbts
    have hs256 : s < 256 := by omega
    have hsz12 : 12 ≤ chunk.size := by
      rw [hsize]; simp [kChunkHeaderSize]
    rw [udpSendLoop_succ_nofail, hcap]
    by_cases hle : bts ≤ c
    · rw [Nat.min_eq_left hle, Nat.sub_self, if_neg (Nat.lt_irrefl 0)]
      have hfacts := chunkStep_facts chunk msgId data cnt s hlen hsz12 hs256 hhdr
        (data.length - bts) (data.length - bts + bts)
      rw [jsCeilDiv_eq_one hc hbts hle]
      simp only [dispatchedDatagrams_dispatch, dispatchedDatagrams_complete,
        dispatchedDatagrams_nil, emittedErrors_dispatch, emittedErrors_complete,
        emittedErrors_nil, List.map_cons, List.map_nil]
      refine ⟨?_, ?_, by trivial⟩
      · rw [List.range'_one, hfacts.2.1]
      · intro d hd
        rcases List.mem_cons.mp hd with h | h
        · subst h
          exact ⟨by rw [hfacts.1, hsize], hfacts.2.2.1, hfacts.2.2.2.1,
            hfacts.2.2.2.2.1, hfacts.2.2.2.2.2⟩
        · exact absurd h (List.not_mem_nil d)
    · have hlt : c < bts := by omega
      rw [Nat.min_eq_right (Nat.le_of_lt hlt), if_pos (show 0 < bts - c by omega)]
      have hfacts := chunkStep_facts chunk msgId data cnt s hlen hsz12 hs256 hhdr
        (data.length - bts) (data.length - bts + c)
      have hstep := jsCeilDiv_sub hc hlt
      have ihres := ih (bts - c) (s + 1)
        (bufCopy data (chunk.set kOffsetSequenceNumber s) kOffsetPayload
          (data.length - bts) (data.length - bts + c))
        (by omega) (by omega) hsize (by omega)
        (headerOk_payloadCopy (headerOk_set10 hhdr s) data _ _)
      simp only [dispatchedDatagrams_dispatch, dispatchedDatagrams_complete,
        emittedErrors_dispatch, emittedErrors_complete, List.map_cons]
      refine ⟨?_, ?_, ihres.2.2⟩
      · rw [hstep, List.range'_succ, hfacts.2.1, ihres.1]
      · intro d hd
        rcases List.mem_cons.mp hd with h | h
        · subst h
          exact ⟨by rw [hfacts.1, hsize], hfacts.2.2.1, hfacts.2.2.2.1,
            hfacts.2.2.2.2.1, hfacts.2.2.2.2.2⟩
        · exact ihres.2.1 d h

theorem toBytes_getD10 (chunk : Buf) (v : Nat) (data : List Nat) (ds de : Nat)
    (hsz : 12 ≤ chunk.size) (hv : v < 256) :
    (bufCopy data (chunk.set kOffsetSequenceNumber v) kOffsetPayload ds de).toBytes.getD
      kOffsetSequenceNumber 0 = v := by
  have hlt : kOffsetSequenceNumber <
      (bufCopy data (chunk.set kOffsetSequenceNumber v) kOffsetPayload ds de).size := by
    show kOffsetSequenceNumber < chunk.size
    simp only [kOffsetSequenceNumber]
    omega
  rw [Buf.toBytes_getD _ _ hlt]
  show (bufCopy data (chunk.set kOffsetSequenceNumber v) kOffsetPayload ds de).data 10 = v
  rw [data10_after, Nat.mod_eq_of_lt hv]

theorem seqTrace_succ (fails : Nat → Bool) (s r : Nat) :
    seqTrace fails s (r + 1) = EvS.disp s :: EvS.comp s (!fails s) ::
      (if fails s then [EvS.errS] else seqTrace fails (s + 1) r) := rfl

/-- The reused-buffer loop, stripped to its sequencing skeleton, is the
strictly sequential schedule `seqTrace` for any failure oracle. -/
theorem udpSendLoop_strip {c : Nat} (fails : Nat → Bool) (data : List Nat) (hc : 0 < c) :
    ∀ (fuel bts s : Nat) (chunk : Buf), 0 < bts → bts ≤ fuel →
      chunk.size = kChunkHeaderSize + c →
      s + jsCeilDiv bts c ≤ 128 →
      (udpSendLoop fails data fuel chunk s bts).map stripEv =
        seqTrace fails s (jsCeilDiv bts c) := by
  intro fuel
  induction fuel with
  | zero =>
    intro bts s chunk hbts hfuel _ _
    omega
  | succ fuel ih =>
    intro bts s chunk hbts hfuel hsize hs128
    have hcap : chunk.size - kChunkHeaderSize = c := by
      rw [hsize]; simp [kChunkHeaderSize]
    have hcpos := jsCeilDiv_pos hc hbts
    have hs256 : s < 256 := by omega
    have hsz12 : 12 ≤ chunk.size := by
      rw [hsize]; simp [kChunkHeaderSize]
    have hr : jsCeilDiv bts c = (jsCeilDiv bts c - 1) + 1 := by omega
    rw [udpSendLoop_succ, hcap, hr, seqTrace_succ, List.map_cons, List.map_cons]
    have hd : stripEv (Ev.dispatch (bufCopy data (chunk.set kOffsetSequenceNumber s)
        kOffsetPayload (data.length - bts)
        (data.length - bts + min bts c)).toBytes) = EvS.disp s := by
      simp only [stripEv]
      rw [toBytes_getD10 chunk s data _ _ hsz12 hs256]
    rw [hd]
    simp only [List.cons.injEq]
    refine ⟨by trivial, by trivial, ?_⟩
    by_cases hf : fails s = true
    · rw [if_pos hf, if_pos hf]
      rfl
    · rw [if_neg hf, if_neg hf]
      by_cases hle : bts ≤ c
      · rw [Nat.min_eq_left hle, Nat.sub_self, if_neg (Nat.lt_irrefl 0)]
        rw [jsCeilDiv_eq_one hc hbts hle]
        rfl
      · have hlt : c < bts := by omega
        rw [Nat.min_eq_right (Nat.le_of_lt hlt), if_pos (show 0 < bts - c by omega)]
        have hstep := jsCeilDiv_sub hc hlt
        rw [hstep] at hs128
        rw [hstep, Nat.add_sub_cancel]
        exact ih (bts - c) (s + 1)
          (bufCopy data (chunk.set kOffsetSequenceNumber s) kOffsetPayload
            (data.length - bts) (data.length - bts + c))
          (by omega) (by omega) hsize (by omega)

/-- The header a `send` call writes into a fresh chunk buffer before any
sequence number or payload: magic bytes, message id, sequence count. -/
theorem headerOk_base (sz : Nat) (j : Nat → Nat) (msgId : List Nat) (n : Nat)
    (hlen : msgId.length = 8) (hsz : 10 ≤ sz) :
    headerOk msgId (n % 256)
      ((bufCopy msgId (((Buf.mk sz j).set kOffsetMagicByte0 kMagicByte0).set
          kOffsetMagicByte1 kMagicByte1) kOffsetMessageId 0 msgId.length).set
        kOffsetSequenceCount n) := by
  refine ⟨?_, ?_, fun i hi => ?_, ?_⟩
  · simp [Buf.set, bufCopy, kOffsetSequenceCount, kOffsetMessageId, kOffsetMagicByte0,
      kOffsetMagicByte1, kMagicByte0]
  · simp [Buf.set, bufCopy, kOffsetSequenceCount, kOffsetMessageId, kOffsetMagicByte0,
      kOffsetMagicByte1, kMagicByte1]
  · simp only [Buf.set, bufCopy, kOffsetSequenceCount, kOffsetMessageId]
    rw [hlen]
    rw [if_neg (by omega), if_pos (by omega)]
    congr 1
    omega
  · simp [Buf.set, bufCopy, kOffsetSequenceCount]

theorem dispatched_map_dispatch (f : Nat → List Nat) (l : List Nat) :
    dispatchedDatagrams (l.map fun i => Ev.dispatch (f i)) = l.map f := by
  induction l with
  | nil => rfl
  | cons a t ih => simp only [List.map_cons, dispatchedDatagrams_dispatch, ih]

theorem emitted_map_dispatch (f : Nat → List Nat) (l : List Nat) :
    emittedErrors (l.map fun i => Ev.dispatch (f i)) = [] := by
  induction l with
  | nil => rfl
  | cons a t ih => simp only [List.map_cons, emittedErrors_dispatch, ih]

theorem size_base (sz : Nat) (j : Nat → Nat) (msgId : List Nat) (n : Nat) :
    ((bufCopy msgId (((Buf.mk sz j).set kOffsetMagicByte0 kMagicByte0).set
        kOffsetMagicByte1 kMagicByte1) kOffsetMessageId 0 msgId.length).set
      kOffsetSequenceCount n).size = sz := rfl

/-- Chunked `send` (both buffer modes, no write failures): the dispatched
datagrams have sequence-number bytes `0, ..., numChunks - 1` in order,
each is `chunkSize = 12 + ceil(L / numChunks)` bytes long and carries
the magic bytes, the message id at offsets 2-9 and `numChunks` at
offset 11, and no error is emitted. -/
theorem udpSend_chunked_spec (bufferSize : Nat) (reuse : Bool) (msgId : List Nat)
    (junk : Nat → Nat → Nat) (msg : List Nat)
    (hlen : msgId.length = 8) (hb : kChunkHeaderSize < bufferSize)
    (hL : bufferSize < msg.length)
    (hn : jsCeilDiv msg.length (bufferSize - kChunkHeaderSize) ≤ kMaxChunks) :
    (dispatchedDatagrams (udpSend bufferSize reuse msgId junk (fun _ => false) msg)).map
        (fun d => d.getD 10 0) =
      List.range (jsCeilDiv msg.length (bufferSize - kChunkHeaderSize)) ∧
    (∀ d ∈ dispatchedDatagrams (udpSend bufferSize reuse msgId junk (fun _ => false) msg),
      d.length = kChunkHeaderSize +
          jsCeilDiv msg.length (jsCeilDiv msg.length (bufferSize - kChunkHeaderSize)) ∧
      d.getD 0 0 = kMagicByte0 ∧ d.getD 1 0 = kMagicByte1 ∧
      (d.drop 2).take 8 = msgId ∧
      d.getD 11 0 = jsCeilDiv msg.length (bufferSize - kChunkHeaderSize)) ∧
    emittedErrors (udpSend bufferSize reuse msgId junk (fun _ => false) msg) = [] := by
  obtain ⟨hm, hn2, hcpos, hcm, hid⟩ := chunkArith hb hL
  have hk : kChunkHeaderSize = 12 := rfl
  have hmax : kMaxChunks = 128 := rfl
  rw [hmax] at hn
  have hLpos : 0 < msg.length := by omega
  have hchsz : jsCeilDiv
      (msg.length + jsCeilDiv msg.length (bufferSize - kChunkHeaderSize) * kChunkHeaderSize)
      (jsCeilDiv msg.length (bufferSize - kChunkHeaderSize)) =
      kChunkHeaderSize +
        jsCeilDiv msg.length (jsCeilDiv msg.length (bufferSize - kChunkHeaderSize)) :=
    jsCeilDiv_add_mul_self (by omega)
  simp only [udpSend]
  rw [if_neg (by omega), if_neg (by rw [hmax]; omega)]
  cases reuse with
  | true =>
    rw [if_pos rfl]
    have hhdr := headerOk_base
      (jsCeilDiv
        (msg.length + jsCeilDiv msg.length (bufferSize - kChunkHeaderSize) * kChunkHeaderSize)
        (jsCeilDiv msg.length (bufferSize - kChunkHeaderSize)))
      (junk 0) msgId (jsCeilDiv msg.length (bufferSize - kChunkHeaderSize)) hlen
      (by rw [hchsz]; omega)
    rw [Nat.mod_eq_of_lt (by omega :
      jsCeilDiv msg.length (bufferSize - kChunkHeaderSize) < 256)] at hhdr
    have hloop := udpSendLoop_nofail
      (c := jsCeilDiv msg.length (jsCeilDiv msg.length (bufferSize - kChunkHeaderSize)))
      msg msgId (jsCeilDiv msg.length (bufferSize - kChunkHeaderSize)) hlen hcpos
      msg.length msg.length 0
      ((bufCopy msgId (((Buf.mk
          (jsCeilDiv
            (msg.length +
              jsCeilDiv msg.length (bufferSize - kChunkHeaderSize) * kChunkHeaderSize)
            (jsCeilDiv msg.length (bufferSize - kChunkHeaderSize)))
          (junk 0)).set kOffsetMagicByte0 kMagicByte0).set
          kOffsetMagicByte1 kMagicByte1) kOffsetMessageId 0 msgId.length).set
        kOffsetSequenceCount (jsCeilDiv msg.length (bufferSize - kChunkHeaderSize)))
      hLpos le_rfl (by exact hchsz) (by omega) hhdr
    exact ⟨by rw [hloop.1, hid]; exact (List.range_eq_range' _).symm, hloop.2.1, hloop.2.2⟩
  | false =>
    rw [if_neg (by simp)]
    have hfacts : ∀ i, i ∈ List.range (jsCeilDiv msg.length (bufferSize - kChunkHeaderSize)) →
        ((bufCopy msg (((bufCopy msgId (((Buf.mk
            (jsCeilDiv
              (msg.length +
                jsCeilDiv msg.length (bufferSize - kChunkHeaderSize) * kChunkHeaderSize)
              (jsCeilDiv msg.length (bufferSize - kChunkHeaderSize)))
            (junk i)).set kOffsetMagicByte0 kMagicByte0).set
            kOffsetMagicByte1 kMagicByte1) kOffsetMessageId 0 msgId.length).set
          kOffsetSequenceCount
            (jsCeilDiv msg.length (bufferSize - kChunkHeaderSize))).set
          kOffsetSequenceNumber i) kOffsetPayload
          (i * (bufferSize - kChunkHeaderSize))
          (min msg.length
            (i * (bufferSize - kChunkHeaderSize) + (bufferSize - kChunkHeaderSize)))).toBytes.length =
          kChunkHeaderSize +
            jsCeilDiv msg.length (jsCeilDiv msg.length (bufferSize - kChunkHeaderSize)) ∧
        (bufCopy msg (((bufCopy msgId (((Buf.mk
            (jsCeilDiv
              (msg.length +
                jsCeilDiv msg.length (bufferSize - kChunkHeaderSize) * kChunkHeaderSize)
              (jsCeilDiv msg.length (bufferSize - kChunkHeaderSize)))
            (junk i)).set kOffsetMagicByte0 kMagicByte0).set
            kOffsetMagicByte1 kMagicByte1) kOffsetMessageId 0 msgId.length).set
          kOffsetSequenceCount
            (jsCeilDiv msg.length (bufferSize - kChunkHeaderSize))).set
          kOffsetSequenceNumber i) kOffsetPayload
          (i * (bufferSize - kChunkHeaderSize))
          (min msg.length
            (i * (bufferSize - kChunkHeaderSize) + (bufferSize - kChunkHeaderSize)))).toBytes.getD
            10 0 = i ∧
        (bufCopy msg (((bufCopy msgId (((Buf.mk
            (jsCeilDiv
              (msg.length +
                jsCeilDiv msg.length (bufferSize - kChunkHeaderSize) * kChunkHeaderSize)
              (jsCeilDiv msg.length (bufferSize - kChunkHeaderSize)))
            (junk i)).set kOffsetMagicByte0 kMagicByte0).set
            kOffsetMagicByte1 kMagicByte1) kOffsetMessageId 0 msgId.length).set
          kOffsetSequenceCount
            (jsCeilDiv msg.length (bufferSize - kChunkHeaderSize))).set
          kOffsetSequenceNumber i) kOffsetPayload
          (i * (bufferSize - kChunkHeaderSize))
          (min msg.length
            (i * (bufferSize - kChunkHeaderSize) + (bufferSize - kChunkHeaderSize)))).toBytes.getD
            0 0 = kMagicByte0 ∧
        (bufCopy msg (((bufCopy msgId (((Buf.mk
            (jsCeilDiv
              (msg.length +
                jsCeilDiv msg.length (bufferSize - kChunkHeaderSize) * kChunkHeaderSize)
              (jsCeilDiv msg.length (bufferSize - kChunkHeaderSize)))
            (junk i)).set kOffsetMagicByte0 kMagicByte0).set
            kOffsetMagicByte1 kMagicByte1) kOffsetMessageId 0 msgId.length).set
          kOffsetSequenceCount
            (jsCeilDiv msg.length (bufferSize - kChunkHeaderSize))).set
          kOffsetSequenceNumber i) kOffsetPayload
          (i * (bufferSize - kChunkHeaderSize))
          (min msg.length
            (i * (bufferSize - kChunkHeaderSize) + (bufferSize - kChunkHeaderSize)))).toBytes.getD
            1 0 = kMagicByte1 ∧
        ((bufCopy msg (((bufCopy msgId (((Buf.mk
            (jsCeilDiv
              (msg.length +
                jsCeilDiv msg.length (bufferSize - kChunkHeaderSize) * kChunkHeaderSize)
              (jsCeilDiv msg.length (bufferSize - kChunkHeaderSize)))
            (junk i)).set kOffsetMagicByte0 kMagicByte0).set
            kOffsetMagicByte1 kMagicByte1) kOffsetMessageId 0 msgId.length).set
          kOffsetSequenceCount
            (jsCeilDiv msg.length (bufferSize - kChunkHeaderSize))).set
          kOffsetSequenceNumber i) kOffsetPayload
          (i * (bufferSize - kChunkHeaderSize))
          (min msg.length
            (i * (bufferSize - kChunkHeaderSize) + (bufferSize - kChunkHeaderSize)))).toBytes.drop
            2).take 8 = msgId ∧
        (bufCopy msg (((bufCopy msgId (((Buf.mk
            (jsCeilDiv
              (msg.length +
                jsCeilDiv msg.length (bufferSize - kChunkHeaderSize) * kChunkHeaderSize)
              (jsCeilDiv msg.length (bufferSize - kChunkHeaderSize)))
            (junk i)).set kOffsetMagicByte0 kMagicByte0).set
            kOffsetMagicByte1 kMagicByte1) kOffsetMessageId 0 msgId.length).set
          kOffsetSequenceCount
            (jsCeilDiv msg.length (bufferSize - kChunkHeaderSize))).set
          kOffsetSequenceNumber i) kOffsetPayload
          (i * (bufferSize - kChunkHeaderSize))
          (min msg.length
            (i * (bufferSize - kChunkHeaderSize) + (bufferSize - kChunkHeaderSize)))).toBytes.getD
            11 0 = jsCeilDiv msg.length (bufferSize - kChunkHeaderSize)) := by
      intro i hi
      have hilt := List.mem_range.mp hi
      have hhdr := headerOk_base
        (jsCeilDiv
          (msg.length +
            jsCeilDiv msg.length (bufferSize - kChunkHeaderSize) * kChunkHeaderSize)
          (jsCeilDiv msg.length (bufferSize - kChunkHeaderSize)))
        (junk i) msgId (jsCeilDiv msg.length (bufferSize - kChunkHeaderSize)) hlen
        (by rw [hchsz]; omega)
      rw [Nat.mod_eq_of_lt (by omega :
        jsCeilDiv msg.length (bufferSize - kChunkHeaderSize) < 256)] at hhdr
      have hsf := chunkStep_facts _ msgId msg
        (jsCeilDiv msg.length (bufferSize - kChunkHeaderSize)) i hlen
        (by rw [size_base, hchsz, hk]; omega) (by omega) hhdr
        (i * (bufferSize - kChunkHeaderSize))
        (min msg.length
          (i * (bufferSize - kChunkHeaderSize) + (bufferSize - kChunkHeaderSize)))
      refine ⟨?_, hsf.2.1, hsf.2.2.1, hsf.2.2.2.1, hsf.2.2.2.2.1, hsf.2.2.2.2.2⟩
      rw [hsf.1]
      exact hchsz
    refine ⟨?_, ?_, ?_⟩
    · rw [dispatched_map_dispatch, List.map_map]
      refine (List.map_congr_left fun i hi => ?_).trans (List.map_id _)
      exact (hfacts i hi).2.1
    · rw [dispatched_map_dispatch]
      intro d hd
      obtain ⟨i, hi, rfl⟩ := List.mem_map.mp hd
      obtain ⟨h1, h2, h3, h4, h5, h6⟩ := hfacts i hi
      exact ⟨h1, h3, h4, h5, h6⟩
    · exact emitted_map_dispatch _ _

/-! ### Stream transport facts -/

theorem tcpDrainLoop_false (accept : Nat → Bool) (written backlog : List (List Nat)) :
    tcpDrainLoop accept written backlog false = (written, backlog, false) := by
  cases backlog <;> rfl

/-- The drain loop writes a prefix of the backlog, in order, one entry
at a time, and leaves the rest queued; it writes at least one entry
when the backlog is nonempty, every write before the last one was
accepted (so the loop never continues past a refusal), and it stops
short of the end only because the last write it performed was refused,
leaving the acceptance flag false. -/
theorem tcpDrainLoop_spec (accept : Nat → Bool) :
    ∀ (backlog written : List (List Nat)),
      ∃ k ca, k ≤ backlog.length ∧
        tcpDrainLoop accept written backlog true =
          (written ++ backlog.take k, backlog.drop k, ca) ∧
        (k < backlog.length → ca = false) ∧
        (backlog ≠ [] → 0 < k) ∧
        (∀ j, j + 1 < k → accept (written.length + j) = true) ∧
        (k < backlog.length → accept (written.length + (k - 1)) = false) := by
  intro backlog
  induction backlog with
  | nil =>
    intro written
    exact ⟨0, true, by omega, by simp [tcpDrainLoop], by simp, by simp,
      fun j hj => absurd hj (by omega), fun h => absurd h (by simp)⟩
  | cons a rest ih =>
    intro written
    have hstep : tcpDrainLoop accept written (a :: rest) true =
        tcpDrainLoop accept (written ++ [a]) rest (accept written.length) := rfl
    by_cases hacc : accept written.length = true
    · obtain ⟨k, ca, hk, heq, hstop, hpos, hall, hlast⟩ := ih (written ++ [a])
      refine ⟨k + 1, ca, by simp; omega, ?_, ?_, fun _ => by omega, ?_, ?_⟩
      · rw [hstep, hacc, heq, List.take_succ_cons, List.drop_succ_cons, List.append_assoc]
        rfl
      · intro hlt
        exact hstop (by simp at hlt ⊢; omega)
      · intro j hj
        cases j with
        | zero => simpa using hacc
        | succ j' =>
          have h1 := hall j' (by omega)
          have harg : written.length + (j' + 1) = (written ++ [a]).length + j' := by
            simp
            omega
          rw [harg]
          exact h1
      · intro hlt
        have hklt : k < rest.length := by
          simp at hlt
          omega
        have hkpos : 0 < k := hpos (by
          intro he
          rw [he] at hklt
          simp at hklt)
        have harg : written.length + (k + 1 - 1) = (written ++ [a]).length + (k - 1) := by
          simp
          omega
        rw [harg]
        exact hlast hklt
    · have hacc' : accept written.length = false := by
        revert hacc; cases accept written.length <;> simp
      refine ⟨1, false, by simp, ?_, fun _ => rfl, fun _ => by omega,
        fun j hj => absurd hj (by omega), fun _ => ?_⟩
      · rw [hstep, hacc', tcpDrainLoop_false]
        rfl
      · simpa using hacc' 

/-- One stimulus preserves: the written-then-backlog concatenation is a
subsequence of what it was plus the new frame (if any), and acceptance
implies an empty backlog. -/
theorem tcpStep_inv (accept : Nat → Bool) (maxB : Nat) (s : TcpState) (e : TcpEv)
    (hinv : s.canAcceptData = true → s.backlog = []) :
    List.Sublist ((tcpStep accept maxB s e).written ++ (tcpStep accept maxB s e).backlog)
      ((s.written ++ s.backlog) ++ sentFrames [e]) ∧
    ((tcpStep accept maxB s e).canAcceptData = true →
      (tcpStep accept maxB s e).backlog = []) := by
  cases e with
  | send m =>
    show List.Sublist ((tcpSend accept maxB s m).written ++ (tcpSend accept maxB s m).backlog)
        ((s.written ++ s.backlog) ++ [frameMsg m]) ∧
      ((tcpSend accept maxB s m).canAcceptData = true →
        (tcpSend accept maxB s m).backlog = [])
    by_cases hca : s.canAcceptData = true
    · have hbl := hinv hca
      refine ⟨?_, ?_⟩
      · simp [tcpSend, hca, hbl]
      · intro _
        simp [tcpSend, hca, hbl]
    · have hca' : s.canAcceptData = false := by
        revert hca; cases s.canAcceptData <;> simp
    
      by_cases hroom : s.backlog.length < maxB
      · refine ⟨?_, ?_⟩
        · simp [tcpSend, hca', hroom]
        · intro h
          simp [tcpSend, hca', hroom] at h
      · refine ⟨?_, ?_⟩
        · refine List.Sublist.trans ?_ (List.sublist_append_left _ _)
          simp [tcpSend, hca', hroom]
        · intro h
          simp [tcpSend, hca', hroom] at h
  | drain =>
    obtain ⟨k, ca, hk, heq, hstop, hpos, hall, hlast⟩ :=
      tcpDrainLoop_spec accept s.backlog s.written
    show List.Sublist ((tcpDrain accept s).written ++ (tcpDrain accept s).backlog)
        ((s.written ++ s.backlog) ++ []) ∧
      ((tcpDrain accept s).canAcceptData = true → (tcpDrain accept s).backlog = [])
    have hwr : (tcpDrain accept s).written = s.written ++ s.backlog.take k := by
      simp [tcpDrain, heq]
    have hbk : (tcpDrain accept s).backlog = s.backlog.drop k := by
      simp [tcpDrain, heq]
    have hcaeq : (tcpDrain accept s).canAcceptData = ca := by
      simp [tcpDrain, heq]
    refine ⟨?_, ?_⟩
    · rw [hwr, hbk, List.append_nil, List.append_assoc, List.take_append_drop]
    · intro h
      rw [hcaeq] at h
      rw [hbk]
      by_cases hkl : k < s.backlog.length
      · rw [hstop hkl] at h
        exact absurd h (by simp)
      · exact List.drop_eq_nil_of_le (by omega)

/-- Running any stimulus sequence keeps the delivered-then-queued bytes
an order-preserving subsequence of the frames passed to `send`. -/
theorem tcpRun_inv (accept : Nat → Bool) (maxB : Nat) :
    ∀ (evs : List TcpEv) (s : TcpState),
      (s.canAcceptData = true → s.backlog = []) →
      List.Sublist
        ((tcpRun accept maxB evs s).written ++ (tcpRun accept maxB evs s).backlog)
        ((s.written ++ s.backlog) ++ sentFrames evs) ∧
      ((tcpRun accept maxB evs s).canAcceptData = true →
        (tcpRun accept maxB evs s).backlog = []) := by
  intro evs
  induction evs with
  | nil =>
    intro s hinv
    refine ⟨?_, hinv⟩
    simp [tcpRun, sentFrames]
  | cons e rest ih =>
    intro s hinv
    have hrun : tcpRun accept maxB (e :: rest) s =
        tcpRun accept maxB rest (tcpStep accept maxB s e) := rfl
    obtain ⟨hstep1, hstep2⟩ := tcpStep_inv accept maxB s e hinv
    obtain ⟨hr1, hr2⟩ := ih (tcpStep accept maxB s e) hstep2
    rw [hrun]
    refine ⟨List.Sublist.trans hr1 ?_, hr2⟩
    have hsf : sentFrames (e :: rest) = sentFrames [e] ++ sentFrames rest := by
      cases e <;> simp [sentFrames]
    rw [hsf, ← List.append_assoc]
    exact List.Sublist.append_right hstep1 _

/-! ### Claim theorems -/

/-- **C1** (code-bug exhibit).  The claim says concatenating fragment
payloads (bytes 12 onward) in sequence order reproduces the serialized
bytes exactly, for both `reuseBuffer` modes.  The code violates this:
at `bufferSize = 22` with a 25-byte message (`numChunks = 3`, payload
capacity `chunkSize - 12 = 9` but stride `maxDataPerChunk = 10`), the
`reuseBuffer = false` branch silently drops the bytes at indices 9 and
19 (the values 10 and 20 below, with `Buffer.copy` clamping to the
target) and ships 4 uninitialized trailing bytes, and even the
`reuseBuffer = true` branch ships the final chunk padded with stale
bytes of the previous fragment, so neither concatenation equals the
message. -/
theorem udpSend_reassembly_mismatch :
    (((dispatchedDatagrams (udpSend 22 false [1, 2, 3, 4, 5, 6, 7, 8] (fun _ _ => 0)
        (fun _ => false) ((List.range 25).map fun i => i + 1))).map
        (fun d => d.drop 12)).flatten ≠ (List.range 25).map fun i => i + 1) ∧
    (10 : Nat) ∈ (List.range 25).map (fun i => i + 1) ∧
    (10 : Nat) ∉ ((dispatchedDatagrams (udpSend 22 false [1, 2, 3, 4, 5, 6, 7, 8]
        (fun _ _ => 0) (fun _ => false) ((List.range 25).map fun i => i + 1))).map
        (fun d => d.drop 12)).flatten ∧
    (((dispatchedDatagrams (udpSend 22 true [1, 2, 3, 4, 5, 6, 7, 8] (fun _ _ => 0)
        (fun _ => false) ((List.range 25).map fun i => i + 1))).map
        (fun d => d.drop 12)).flatten ≠ (List.range 25).map fun i => i + 1) ∧
    ((((dispatchedDatagrams (udpSend 22 true [1, 2, 3, 4, 5, 6, 7, 8] (fun _ _ => 0)
        (fun _ => false) ((List.range 25).map fun i => i + 1))).map
        (fun d => d.drop 12)).flatten).length = 27) := by
  decide

/-- **C2.**  `send` dispatches datagrams by a trichotomy on the
post-compression length `L`: at most `bufferSize` bytes, exactly the
one unchunked datagram with the bytes unmodified; otherwise with
`numChunks = ceil(L / (bufferSize - 12)) ≤ 128`, exactly `numChunks`
datagrams and no error; with `numChunks > 128`, no datagram and the
oversize error.  (All fragment writes succeed; both buffer modes.) -/
theorem udpSend_datagram_trichotomy (bufferSize : Nat) (reuse : Bool) (msgId : List Nat)
    (junk : Nat → Nat → Nat) (msg : List Nat)
    (hlen : msgId.length = 8) (hb : kChunkHeaderSize < bufferSize) :
    (msg.length ≤ bufferSize →
      udpSend bufferSize reuse msgId junk (fun _ => false) msg = [Ev.dispatch msg]) ∧
    (bufferSize < msg.length →
      jsCeilDiv msg.length (bufferSize - kChunkHeaderSize) ≤ kMaxChunks →
      (dispatchedDatagrams (udpSend bufferSize reuse msgId junk (fun _ => false) msg)).length =
          jsCeilDiv msg.length (bufferSize - kChunkHeaderSize) ∧
        emittedErrors (udpSend bufferSize reuse msgId junk (fun _ => false) msg) = []) ∧
    (bufferSize < msg.length →
      kMaxChunks < jsCeilDiv msg.length (bufferSize - kChunkHeaderSize) →
      dispatchedDatagrams (udpSend bufferSize reuse msgId junk (fun _ => false) msg) = [] ∧
        emittedErrors (udpSend bufferSize reuse msgId junk (fun _ => false) msg) =
          ["message too large"]) := by
  refine ⟨?_, ?_, ?_⟩
  · intro h
    simp only [udpSend]
    rw [if_pos h]
  · intro h1 h2
    have hsp := udpSend_chunked_spec bufferSize reuse msgId junk msg hlen hb h1 h2
    exact ⟨by simpa using congrArg List.length hsp.1, hsp.2.2⟩
  · intro h1 h2
    simp only [udpSend]
    rw [if_neg (by omega), if_pos h2]
    exact ⟨rfl, rfl⟩

/-- Witness for C2: all three arms at concrete inputs
(`bufferSize = 13`; lengths 3, 14 and 129). -/
theorem udpSend_datagram_trichotomy_witness :
    (dispatchedDatagrams (udpSend 13 true [1, 2, 3, 4, 5, 6, 7, 8] (fun _ _ => 0)
        (fun _ => false) (List.replicate 14 120))).length = 14 ∧
    udpSend 13 false [1, 2, 3, 4, 5, 6, 7, 8] (fun _ _ => 0) (fun _ => false)
        (List.replicate 3 120) = [Ev.dispatch (List.replicate 3 120)] ∧
    emittedErrors (udpSend 13 true [1, 2, 3, 4, 5, 6, 7, 8] (fun _ _ => 0) (fun _ => false)
        (List.replicate 129 120)) = ["message too large"] := by
  refine ⟨?_, ?_, ?_⟩
  · have h := (udpSend_datagram_trichotomy 13 true [1, 2, 3, 4, 5, 6, 7, 8] (fun _ _ => 0)
      (List.replicate 14 120) (by decide) (by decide)).2.1 (by decide) (by decide)
    exact h.1.trans (by decide)
  · exact (udpSend_datagram_trichotomy 13 false [1, 2, 3, 4, 5, 6, 7, 8] (fun _ _ => 0)
      (List.replicate 3 120) (by decide) (by decide)).1 (by decide)
  · exact ((udpSend_datagram_trichotomy 13 true [1, 2, 3, 4, 5, 6, 7, 8] (fun _ _ => 0)
      (List.replicate 129 120) (by decide) (by decide)).2.2 (by decide) (by decide)).2

/-- **C3.**  Every dispatched fragment of a chunked message (both buffer
modes, all writes succeeding) carries the magic bytes 0x1e/0x0f at
offsets 0/1, the shared 8-byte message id at offsets 2-9 and the shared
sequence count `numChunks` at offset 11, and the sequence-number bytes
at offset 10 across the dispatched fragments are exactly
`0, ..., numChunks - 1` (in dispatch order). -/
theorem udpSend_chunk_header_invariants (bufferSize : Nat) (reuse : Bool) (msgId : List Nat)
    (junk : Nat → Nat → Nat) (msg : List Nat)
    (hlen : msgId.length = 8) (hb : kChunkHeaderSize < bufferSize)
    (hL : bufferSize < msg.length)
    (hn : jsCeilDiv msg.length (bufferSize - kChunkHeaderSize) ≤ kMaxChunks) :
    (∀ d ∈ dispatchedDatagrams (udpSend bufferSize reuse msgId junk (fun _ => false) msg),
      d.getD 0 0 = kMagicByte0 ∧ d.getD 1 0 = kMagicByte1 ∧
      (d.drop 2).take 8 = msgId ∧
      d.getD 11 0 = jsCeilDiv msg.length (bufferSize - kChunkHeaderSize)) ∧
    (dispatchedDatagrams (udpSend bufferSize reuse msgId junk (fun _ => false) msg)).map
        (fun d => d.getD 10 0) =
      List.range (jsCeilDiv msg.length (bufferSize - kChunkHeaderSize)) := by
  have hsp := udpSend_chunked_spec bufferSize reuse msgId junk msg hlen hb hL hn
  exact ⟨fun d hd => ⟨(hsp.2.1 d hd).2.1, (hsp.2.1 d hd).2.2.1, (hsp.2.1 d hd).2.2.2.1,
    (hsp.2.1 d hd).2.2.2.2⟩, hsp.1⟩

/-- Witness for C3 at `bufferSize = 13`, 14-byte message, both modes:
the sequence-number bytes of the dispatched fragments are exactly
`0, ..., 13`. -/
theorem udpSend_chunk_header_invariants_witness :
    (dispatchedDatagrams (udpSend 13 true [9, 8, 7, 6, 5, 4, 3, 2] (fun _ _ => 0)
        (fun _ => false) (List.replicate 14 120))).map (fun d => d.getD 10 0) =
      List.range (jsCeilDiv (List.replicate 14 (120 : Nat)).length (13 - kChunkHeaderSize)) ∧
    (dispatchedDatagrams (udpSend 13 false [9, 8, 7, 6, 5, 4, 3, 2] (fun _ _ => 0)
        (fun _ => false) (List.replicate 14 120))).map (fun d => d.getD 10 0) =
      List.range (jsCeilDiv (List.replicate 14 (120 : Nat)).length (13 - kChunkHeaderSize)) :=
  ⟨(udpSend_chunk_header_invariants 13 true [9, 8, 7, 6, 5, 4, 3, 2] (fun _ _ => 0)
      (List.replicate 14 120) (by decide) (by decide) (by decide) (by decide)).2,
    (udpSend_chunk_header_invariants 13 false [9, 8, 7, 6, 5, 4, 3, 2] (fun _ _ => 0)
      (List.replicate 14 120) (by decide) (by decide) (by decide) (by decide)).2⟩

/-- **C4.**  For a chunked message, the per-chunk buffer size is
`ceil((L + numChunks * 12) / numChunks)`; this never exceeds
`bufferSize`, and every dispatched datagram is exactly that many
bytes, hence at most `bufferSize` bytes. -/
theorem udpSend_chunk_size_bound (bufferSize : Nat) (reuse : Bool) (msgId : List Nat)
    (junk : Nat → Nat → Nat) (msg : List Nat)
    (hlen : msgId.length = 8) (hb : kChunkHeaderSize < bufferSize)
    (hL : bufferSize < msg.length)
    (hn : jsCeilDiv msg.length (bufferSize - kChunkHeaderSize) ≤ kMaxChunks) :
    jsCeilDiv
        (msg.length + jsCeilDiv msg.length (bufferSize - kChunkHeaderSize) * kChunkHeaderSize)
        (jsCeilDiv msg.length (bufferSize - kChunkHeaderSize)) ≤ bufferSize ∧
    (∀ d ∈ dispatchedDatagrams (udpSend bufferSize reuse msgId junk (fun _ => false) msg),
      d.length = jsCeilDiv
          (msg.length +
            jsCeilDiv msg.length (bufferSize - kChunkHeaderSize) * kChunkHeaderSize)
          (jsCeilDiv msg.length (bufferSize - kChunkHeaderSize)) ∧
      d.length ≤ bufferSize) := by
  obtain ⟨hm, hn2, hcpos, hcm, hid⟩ := chunkArith hb hL
  have hk : kChunkHeaderSize = 12 := rfl
  have hchsz := jsCeilDiv_add_mul_self
    (L := msg.length) (n := jsCeilDiv msg.length (bufferSize - kChunkHeaderSize)) (by omega)
  rw [hk] at hcm
  have hbound : jsCeilDiv
      (msg.length + jsCeilDiv msg.length (bufferSize - kChunkHeaderSize) * kChunkHeaderSize)
      (jsCeilDiv msg.length (bufferSize - kChunkHeaderSize)) ≤ bufferSize := by
    rw [hchsz, hk]
    omega
  have hsp := udpSend_chunked_spec bufferSize reuse msgId junk msg hlen hb hL hn
  refine ⟨hbound, fun d hd => ?_⟩
  have h1 := (hsp.2.1 d hd).1
  exact ⟨by rw [h1, hchsz], by rw [h1]; rw [hchsz] at hbound; exact hbound⟩

/-- Witness for C4 at `bufferSize = 22`, 25-byte message (uneven chunk
division): the chunk size is 21 and stays within the payload bound. -/
theorem udpSend_chunk_size_bound_witness :
    jsCeilDiv ((List.replicate 25 (7 : Nat)).length +
        jsCeilDiv (List.replicate 25 (7 : Nat)).length (22 - kChunkHeaderSize) *
          kChunkHeaderSize)
        (jsCeilDiv (List.replicate 25 (7 : Nat)).length (22 - kChunkHeaderSize)) ≤ 22 ∧
    jsCeilDiv ((List.replicate 25 (7 : Nat)).length +
        jsCeilDiv (List.replicate 25 (7 : Nat)).length (22 - kChunkHeaderSize) *
          kChunkHeaderSize)
        (jsCeilDiv (List.replicate 25 (7 : Nat)).length (22 - kChunkHeaderSize)) = 21 :=
  ⟨(udpSend_chunk_size_bound 22 true [1, 2, 3, 4, 5, 6, 7, 8] (fun _ _ => 0)
      (List.replicate 25 7) (by decide) (by decide) (by decide) (by decide)).1,
    by decide⟩

/-- **C5.**  On the `reuseBuffer = true` path with any pattern of write
failures, the observable schedule is exactly `seqTrace`: fragment `i+1`
is dispatched only after fragment `i`'s completion reports success, a
failed completion emits a transport error and aborts the remaining
fragments, and the fragments already dispatched stay dispatched (no
retry, no retraction). -/
theorem udpSend_reuse_sequential (bufferSize : Nat) (msgId : List Nat)
    (junk : Nat → Nat → Nat) (fails : Nat → Bool) (msg : List Nat)
    (hb : kChunkHeaderSize < bufferSize) (hL : bufferSize < msg.length)
    (hn : jsCeilDiv msg.length (bufferSize - kChunkHeaderSize) ≤ kMaxChunks) :
    (udpSend bufferSize true msgId junk fails msg).map stripEv =
      seqTrace fails 0 (jsCeilDiv msg.length (bufferSize - kChunkHeaderSize)) := by
  obtain ⟨hm, hn2, hcpos, hcm, hid⟩ := chunkArith hb hL
  have hmax : kMaxChunks = 128 := rfl
  rw [hmax] at hn
  have hLpos : 0 < msg.length := by omega
  have hchsz := jsCeilDiv_add_mul_self
    (L := msg.length) (n := jsCeilDiv msg.length (bufferSize - kChunkHeaderSize)) (by omega)
  simp only [udpSend]
  rw [if_neg (by omega), if_neg (by rw [hmax]; omega), if_pos trivial]
  have hstrip := udpSendLoop_strip
    (c := jsCeilDiv msg.length (jsCeilDiv msg.length (bufferSize - kChunkHeaderSize)))
    fails msg hcpos msg.length msg.length 0
    ((bufCopy msgId (((Buf.mk
        (jsCeilDiv
          (msg.length +
            jsCeilDiv msg.length (bufferSize - kChunkHeaderSize) * kChunkHeaderSize)
          (jsCeilDiv msg.length (bufferSize - kChunkHeaderSize)))
        (junk 0)).set kOffsetMagicByte0 kMagicByte0).set
        kOffsetMagicByte1 kMagicByte1) kOffsetMessageId 0 msgId.length).set
      kOffsetSequenceCount (jsCeilDiv msg.length (bufferSize - kChunkHeaderSize)))
    hLpos le_rfl (by exact hchsz) (by omega)
  rw [hstrip, hid]

/-- Witness for C5: a failure on fragment 1 aborts fragments 2-13 after
dispatching fragments 0 and 1 only, and emits one error. -/
theorem udpSend_reuse_sequential_witness :
    (udpSend 13 true [1, 2, 3, 4, 5, 6, 7, 8] (fun _ _ => 0) (fun i => i == 1)
        (List.replicate 14 120)).map stripEv =
      seqTrace (fun i => i == 1) 0
        (jsCeilDiv (List.replicate 14 (120 : Nat)).length (13 - kChunkHeaderSize)) ∧
    (udpSend 13 true [1, 2, 3, 4, 5, 6, 7, 8] (fun _ _ => 0) (fun i => i == 1)
        (List.replicate 14 120)).map stripEv =
      [EvS.disp 0, EvS.comp 0 true, EvS.disp 1, EvS.comp 1 false, EvS.errS] :=
  ⟨udpSend_reuse_sequential 13 [1, 2, 3, 4, 5, 6, 7, 8] (fun _ _ => 0) (fun i => i == 1)
      (List.replicate 14 120) (by decide) (by decide) (by decide),
    by decide⟩

/-- **C6.**  The stream transport delivers bytes in `send()` call order:
an accepting send writes immediately and records the write's acceptance
result; a backpressured send with room appends to the backlog (FIFO); a
drain writes a prefix of the backlog one entry at a time and stops at
the first write the stream refuses — every earlier write was accepted,
an early stop means the last write performed was refused, and the
acceptance flag is left false — leaving the remainder queued; and over
any run from the connected state the written sequence
is an order-preserving subsequence of the framed `send` arguments. -/
theorem tcp_fifo_delivery (accept : Nat → Bool) (maxB : Nat) :
    (∀ (s : TcpState) (m : List Nat), s.canAcceptData = true →
      tcpSend accept maxB s m =
        { s with written := s.written ++ [frameMsg m],
                 canAcceptData := accept s.written.length }) ∧
    (∀ (s : TcpState) (m : List Nat), s.canAcceptData = false →
      s.backlog.length < maxB →
      tcpSend accept maxB s m = { s with backlog := s.backlog ++ [frameMsg m] }) ∧
    (∀ s : TcpState, ∃ k ca, k ≤ s.backlog.length ∧
      tcpDrain accept s =
        { s with written := s.written ++ s.backlog.take k,
                 backlog := s.backlog.drop k, canAcceptData := ca } ∧
      (k < s.backlog.length → ca = false) ∧ (s.backlog ≠ [] → 0 < k) ∧
      (∀ j, j + 1 < k → accept (s.written.length + j) = true) ∧
      (k < s.backlog.length → accept (s.written.length + (k - 1)) = false)) ∧
    (∀ evs : List TcpEv,
      List.Sublist (tcpRun accept maxB evs tcpInit).written (sentFrames evs)) := by
  refine ⟨?_, ?_, ?_, ?_⟩
  · intro s m h
    simp [tcpSend, h]
  · intro s m h1 h2
    simp [tcpSend, h1, h2]
  · intro s
    obtain ⟨k, ca, hk, heq, hstop, hpos, hall, hlast⟩ :=
      tcpDrainLoop_spec accept s.backlog s.written
    exact ⟨k, ca, hk, by simp [tcpDrain, heq], hstop, hpos, hall, hlast⟩
  · intro evs
    obtain ⟨h1, h2⟩ := tcpRun_inv accept maxB evs tcpInit (fun _ => rfl)
    exact List.Sublist.trans (List.sublist_append_left _ _) h1

/-- Witness for C6: with a stream that refuses every write, the first
send is written and flips the flag, and a run of two sends and a drain
delivers a subsequence of the framed messages. -/
theorem tcp_fifo_delivery_witness :
    tcpSend (fun _ => false) 2 tcpInit [5] =
      { tcpInit with written := [[5, 0]], canAcceptData := false } ∧
    List.Sublist
      (tcpRun (fun _ => false) 2 [TcpEv.send [5], TcpEv.send [6], TcpEv.drain]
        tcpInit).written
      (sentFrames [TcpEv.send [5], TcpEv.send [6], TcpEv.drain]) := by
  refine ⟨?_, (tcp_fifo_delivery (fun _ => false) 2).2.2.2 _⟩
  have h := (tcp_fifo_delivery (fun _ => false) 2).1 tcpInit [5] rfl
  rw [h]
  decide

/-- **C7.**  A backpressured `send`: with backlog room the framed
message is appended to the backlog (and nothing is written); at
capacity the message is dropped — backlog unchanged — and a
backlog-overflow error is emitted on the error channel; the backlog
length never exceeds `maxBacklogSize`, and no write to the connection
happens.  `send` is a total function into the state: every outcome,
including overflow, is recorded rather than raised. -/
theorem tcpSend_backpressure (accept : Nat → Bool) (maxB : Nat) (s : TcpState)
    (m : List Nat) (h : s.canAcceptData = false) :
    (s.backlog.length < maxB →
      tcpSend accept maxB s m = { s with backlog := s.backlog ++ [frameMsg m] }) ∧
    (maxB ≤ s.backlog.length →
      tcpSend accept maxB s m =
        { s with errors := s.errors ++ ["too many messages buffered"] }) ∧
    (s.backlog.length ≤ maxB → (tcpSend accept maxB s m).backlog.length ≤ maxB) ∧
    (tcpSend accept maxB s m).written = s.written := by
  refine ⟨?_, ?_, ?_, ?_⟩
  · intro h2
    simp [tcpSend, h, h2]
  · intro h2
    simp [tcpSend, h, Nat.not_lt.mpr h2]
  · intro h2
    by_cases h3 : s.backlog.length < maxB
    · simp [tcpSend, h, h3]
      omega
    · simp [tcpSend, h, h3]
      omega
  · by_cases h3 : s.backlog.length < maxB
    · simp [tcpSend, h, h3]
    · simp [tcpSend, h, h3]

/-- Witness for C7: a backpressured state with a one-slot backlog at
capacity drops the message and reports the overflow; with room it
queues. -/
theorem tcpSend_backpressure_witness :
    tcpSend (fun _ => true) 1
        { backlog := [[1, 0]], canAcceptData := false, written := [], errors := [],
          socket := true, client := true } [9] =
      { backlog := [[1, 0]], canAcceptData := false, written := [],
        errors := ["too many messages buffered"], socket := true, client := true } ∧
    tcpSend (fun _ => true) 2
        { backlog := [[1, 0]], canAcceptData := false, written := [], errors := [],
          socket := true, client := true } [9] =
      { backlog := [[1, 0], [9, 0]], canAcceptData := false, written := [], errors := [],
        socket := true, client := true } := by
  constructor
  · have h := (tcpSend_backpressure (fun _ => true) 1
      { backlog := [[1, 0]], canAcceptData := false, written := [], errors := [],
        socket := true, client := true } [9] rfl).2.1 (by decide)
    rw [h]
    decide
  · have h := (tcpSend_backpressure (fun _ => true) 2
      { backlog := [[1, 0]], canAcceptData := false, written := [], errors := [],
        socket := true, client := true } [9] rfl).1 (by decide)
    rw [h]
    decide

/-- **C8.**  `close()` is idempotent on both transports, is a safe no-op
before `connect()` (no throw, no error emitted — both closes are total
functions that leave the error list untouched), and the stream close
discards any backlog at that instant without writing it. -/
theorem close_idempotent_discard (s : UdpState) (t : TcpState) :
    udpClose (udpClose s) = udpClose s ∧
    udpClose udpInit = udpInit ∧
    tcpClose (tcpClose t) = tcpClose t ∧
    (tcpClose t).written = t.written ∧
    (tcpClose t).errors = t.errors ∧
    (t.socket = true → (tcpClose t).backlog = []) := by
  refine ⟨?_, rfl, ?_, ?_, ?_, ?_⟩
  · by_cases hs : s.socket = true <;> simp [udpClose, hs]
  · by_cases ht : t.socket = true <;> simp [tcpClose, ht]
  · by_cases ht : t.socket = true <;> simp [tcpClose, ht]
  · by_cases ht : t.socket = true <;> simp [tcpClose, ht]
  · intro ht
    simp [tcpClose, ht]

/-- Witness for C8 on a connected UDP transport and a connected TCP
transport with a nonempty backlog. -/
theorem close_idempotent_discard_witness :
    udpClose (udpClose { socket := true, client := true }) =
      udpClose { socket := true, client := true } ∧
    tcpClose
        (tcpClose
          { backlog := [[1, 0]], canAcceptData := false, written := [[2, 0]],
            errors := [], socket := true, client := true }) =
      tcpClose
        { backlog := [[1, 0]], canAcceptData := false, written := [[2, 0]],
          errors := [], socket := true, client := true } ∧
    (tcpClose
        { backlog := [[1, 0]], canAcceptData := false, written := [[2, 0]],
          errors := [], socket := true, client := true }).backlog = [] ∧
    (tcpClose
        { backlog := [[1, 0]], canAcceptData := false, written := [[2, 0]],
          errors := [], socket := true, client := true }).written = [[2, 0]] :=
  ⟨(close_idempotent_discard { socket := true, client := true }
      { backlog := [[1, 0]], canAcceptData := false, written := [[2, 0]],
        errors := [], socket := true, client := true }).1,
    (close_idempotent_discard { socket := true, client := true }
      { backlog := [[1, 0]], canAcceptData := false, written := [[2, 0]],
        errors := [], socket := true, client := true }).2.2.1,
    (close_idempotent_discard { socket := true, client := true }
      { backlog := [[1, 0]], canAcceptData := false, written := [[2, 0]],
        errors := [], socket := true, client := true }).2.2.2.2.2 rfl,
    (close_idempotent_discard { socket := true, client := true }
      { backlog := [[1, 0]], canAcceptData := false, written := [[2, 0]],
        errors := [], socket := true, client := true }).2.2.2.1⟩

/-- **C9** (counterexample).  The claim says both described transport
kinds construct successfully; but `supportedTransports` is `["udp"]`,
so a configuration naming `tcp` is rejected with an
unsupported-transport error. -/
theorem gelfConstruct_tcp_rejected :
    gelfConstruct ("h") ("1.1") ("tcp") =
      Except.error ("unsupported transport: tcp") := rfl

/-- **C9 (amended).**  Of the two transport kinds the spec describes,
only the datagram/udp kind is constructible: a valid configuration
naming `udp` completes without error and selects the UDP transport;
any other kind — including `tcp` — fails construction with an
unsupported-transport error; and every composed message of a live
client is forwarded to the selected transport's `send`. -/
theorem gelfClient_udp_only (h v : String) :
    gelfConstruct h v ("udp") =
      Except.ok { host := h, version := v, transport := some [] } ∧
    (∀ t : String, t ∉ supportedTransports →
      gelfConstruct h v t = Except.error ("unsupported transport: " ++ t)) ∧
    (∀ (c : GelfClient) (sent : List GelfMessage) (lvl : Option Int),
      c.transport = some sent →
      gelfLog c lvl = Except.ok
        { c with transport := some (sent ++ [composeMessage c.version c.host lvl]) }) := by
  refine ⟨?_, ?_, ?_⟩
  · simp [gelfConstruct, supportedTransports]
  · intro t ht
    simp [gelfConstruct, ht]
  · intro c sent lvl hc
    unfold gelfLog
    rw [hc]

/-- Witness for the amended C9. -/
theorem gelfClient_udp_only_witness :
    gelfConstruct ("myhost") ("1.1") ("udp") =
      Except.ok { host := "myhost", version := "1.1", transport := some [] } ∧
    gelfConstruct ("myhost") ("1.1") ("xxx") =
      Except.error ("unsupported transport: xxx") ∧
    gelfLog { host := "myhost", version := "1.1", transport := some [] } (some 3) =
      Except.ok
        { host := "myhost", version := "1.1",
          transport := some [composeMessage "1.1" "myhost" (some 3)] } := by
  refine ⟨(gelfClient_udp_only "myhost" "1.1").1, ?_, ?_⟩
  · exact (gelfClient_udp_only "myhost" "1.1").2.1 "xxx" (by decide)
  · exact (gelfClient_udp_only "myhost" "1.1").2.2 _ [] (some 3) rfl

/-- **C10.**  `GelfClient.close` is not idempotent: the first call
clears the transport reference and succeeds; a second call — and any
log call after close — hits the null reference and throws a
`TypeError`. -/
theorem gelfClose_not_idempotent (c : GelfClient) (sent : List GelfMessage)
    (hc : c.transport = some sent) :
    gelfClose c = Except.ok { c with transport := none } ∧
    gelfClose { c with transport := none } =
      Except.error ("TypeError: transport is null") ∧
    gelfLog { c with transport := none } (some 3) =
      Except.error ("TypeError: transport is null") := by
  refine ⟨?_, rfl, rfl⟩
  unfold gelfClose
  rw [hc]

/-- Witness for C10. -/
theorem gelfClose_not_idempotent_witness :
    gelfClose { host := "h", version := "v", transport := some [] } =
      Except.ok
        { host := "h", version := "v", transport := (none : Option (List GelfMessage)) } ∧
    gelfClose
        { host := "h", version := "v", transport := (none : Option (List GelfMessage)) } =
      Except.error ("TypeError: transport is null") ∧
    gelfLog
        { host := "h", version := "v", transport := (none : Option (List GelfMessage)) }
        (some 3) =
      Except.error ("TypeError: transport is null") :=
  gelfClose_not_idempotent { host := "h", version := "v", transport := some [] } [] rfl
